import Mathlib

/-!
# Verification of the `lambda-invoke` bootstrap harness

Shallow embedding of `packages/cli/assets/lambda-invoke/bootstrap.js`.

The bootstrap runs one invocation of a user handler inside a child
process and reports outcomes to the parent over IPC (`process.send`).
We embed its control flow as a deterministic state-passing interpreter.

Modelling choices, justified line-by-line against the source:

* JavaScript values that flow through the harness are modelled by
  `Value` (enough constructors to express the truthiness test
  `err ? reject(err) : resolve(data)` at line 130 and the
  `data === undefined ? null : data` normalisation at line 180).
* The single-resolution invocation promise (created at line 127) is a
  cell `settled : Option (Except Value Value)`; `resolve`/`reject`
  are first-writer-wins, exactly as for a JS promise.
* Observable events are collected in order in `St.events`.  An
  `Ev.send m` is recorded at the point where the transmission of `m`
  has been confirmed by the transport: `invokeResponse` (lines
  174-186) and `invokeError` (lines 188-199) both `await` the
  `process.send` confirmation callback before returning, and the
  exit check inside the handler `callback` (lines 141-149) runs in
  the confirmation callback of its own `invokeResponse`.  IPC
  messages are confirmed in FIFO order, so the linear trace is
  faithful to the single-threaded event loop.
* The user handler itself is opaque to the harness; the harness only
  observes (a) the synchronous `callback` invocations it makes,
  (b) whether its body throws, returns a thenable, or returns a
  non-thenable, and (c) a possible later (asynchronous) `callback`
  invocation after the handler has returned.  `UserHandler` records
  exactly these observations, plus the value of
  `context.callbackWaitsForEmptyEventLoop` at the time
  `processEvents` tests it (line 83/95; `waits = false` models the
  strict `=== false` comparison, absence defaulting to waiting).
-/

/-- JavaScript values flowing through the harness (payloads, callback
arguments, thrown errors). -/
inductive Value
  | undef
  | vnull
  | bool (b : Bool)
  | num (n : Int)
  | str (s : String)
  deriving DecidableEq, Repr

/-- JS truthiness for `Value`, used by `context.done`
(`err ? reject(err) : resolve(data)`, bootstrap.js line 130). -/
def Value.truthy : Value → Bool
  | .undef => false
  | .vnull => false
  | .bool b => b
  | .num n => n != 0
  | .str s => s != ""

/-- `data === undefined ? null : data` (bootstrap.js line 180). -/
def Value.normUndef : Value → Value
  | .undef => .vnull
  | v => v

/-- Modelled from the spec: `serializeError` lives in
`packages/cli/lib/serializeError` which is not part of the sources
under review; the spec treats it as "an opaque structural-clone
producer", so we embed it as the structural identity on `Value`. -/
def serializeError (e : Value) : Value := e

deriving instance DecidableEq for Except

/-- Wire shape of the outbound IPC messages
(bootstrap.js lines 177-183 and 191-197). -/
inductive Msg
  | success (data : Value)
  | failure (error : Value)
  deriving DecidableEq, Repr

/-- Observable events of one bootstrap process: a confirmed IPC
transmission, or a `process.exit` with the given status. -/
inductive Ev
  | send (m : Msg)
  | exit (code : Nat)
  deriving DecidableEq, Repr

/-- The mutable fields of the invocation context: the two symbol-keyed
flags `CALLBACK_USED` (line 138) and `ASYNC_HANDLER` (line 162), the
deferred-exit flag `EXIT_ON_CALLBACK` (line 99), and the value the
strict test `callbackWaitsForEmptyEventLoop === false` sees
(lines 83 and 95; `waits = true` covers both `true` and absent). -/
structure Ctx where
  callbackUsed : Bool := false
  asyncHandler : Bool := false
  exitOnCallback : Bool := false
  waits : Bool := true
  deriving DecidableEq, Repr

/-- Whole-process state threaded through the interpreter. -/
structure St where
  ctx : Ctx
  /-- The single-resolution invocation promise (line 127):
  `none` = pending, `some (.ok v)` = resolved, `some (.error e)` =
  rejected. -/
  settled : Option (Except Value Value) := none
  /-- Observable events so far, in order. -/
  events : List Ev := []
  /-- Whether `process.exit` has been called. -/
  exited : Bool := false
  /-- Whether the user handler's body was ever entered (line 156). -/
  invoked : Bool := false
  deriving DecidableEq, Repr

/-- Initial process state; `waits` is the effective value of
`context.callbackWaitsForEmptyEventLoop`. -/
def initSt (waits : Bool) : St := { ctx := { waits := waits } }

/-- `context.succeed = resolve` (line 128): first writer wins on the
invocation promise. -/
def contextSucceed (s : St) (v : Value) : St :=
  if s.settled.isSome then s else { s with settled := some (.ok v) }

/-- `context.fail = reject` (line 129): first writer wins. -/
def contextFail (s : St) (e : Value) : St :=
  if s.settled.isSome then s else { s with settled := some (.error e) }

/-- `context.done = (err, data) => (err ? reject(err) : resolve(data))`
(line 130). -/
def contextDone (s : St) (err data : Value) : St :=
  if err.truthy then contextFail s err else contextSucceed s data

/-- `invokeResponse(result)` without continuation (lines 174-186):
sends `{type: "success", data: result === undefined ? null : result}`
and awaits the transmission confirmation. -/
def invokeResponse (s : St) (result : Value) : St :=
  { s with events := s.events ++ [Ev.send (Msg.success result.normUndef)] }

/-- `invokeError(err)` (lines 188-199): sends
`{type: "failure", error: serializeError(err)}` and awaits the
transmission confirmation. -/
def invokeError (s : St) (err : Value) : St :=
  { s with events := s.events ++ [Ev.send (Msg.failure (serializeError err))] }

/-- `process.exit(code)`. -/
def exitProc (s : St) (code : Nat) : St :=
  { s with events := s.events ++ [Ev.exit code], exited := true }

/-- The `callback` closure handed to the user handler
(bootstrap.js lines 133-150): records `CALLBACK_USED`, settles via
`context.done(err, data)`, then `invokeResponse(data, cb)` where the
continuation — run once the transmission is confirmed — exits with
status 0 when `EXIT_ON_CALLBACK` is armed (lines 141-149). -/
def callback (s : St) (err data : Value) : St :=
  let s1 := { s with ctx := { s.ctx with callbackUsed := true } }
  let s2 := contextDone s1 err data
  let s3 := invokeResponse s2 data
  if s3.ctx.exitOnCallback then exitProc s3 0 else s3

/-- What the harness observes of the user handler's body
(called at line 156 with `(event, context, callback)`). -/
inductive HandlerBody
  /-- The body throws synchronously (caught at lines 157-159). -/
  | throws (e : Value)
  /-- The body returns a non-thenable value (lines 165-170). -/
  | returns (v : Value)
  /-- The body returns a thenable that eventually settles with the
  given result (lines 160-164). -/
  | thenable (r : Except Value Value)
  deriving DecidableEq, Repr

/-- Harness-observable behaviour of one user handler: the
`callback(err, data)` invocations it makes synchronously during its
body (in order), its body's completion, an optional single
`callback(err, data)` invocation fired later from the event loop, and
the effective `callbackWaitsForEmptyEventLoop` value. -/
structure UserHandler where
  syncCalls : List (Value × Value) := []
  body : HandlerBody
  laterCall : Option (Value × Value) := none
  waits : Bool := true
  deriving DecidableEq, Repr

/-- Runs the synchronous `callback` invocations the handler body
makes, in order. -/
def runSyncCalls (s : St) : List (Value × Value) → St
  | [] => s
  | (err, data) :: rest => runSyncCalls (callback s err data) rest

/-- The promise executor returned by `getHandler`
(bootstrap.js lines 126-171), run on the handler `h`: marks the body
as entered, performs its synchronous `callback` calls, then settles
according to the body — `reject(e)` on a synchronous throw (line 158),
`ASYNC_HANDLER := true` and `result.then(resolve, reject)` for a
thenable (lines 161-164), `resolve(null)` otherwise (line 169). -/
def runHandler (h : UserHandler) (s : St) : St :=
  let s0 := { s with invoked := true }
  let s1 := runSyncCalls s0 h.syncCalls
  match h.body with
  | .throws e => contextFail s1 e
  | .returns _ => contextSucceed s1 Value.vnull
  | .thenable r =>
      let s2 := { s1 with ctx := { s1.ctx with asyncHandler := true } }
      match r with
      | .ok v => contextSucceed s2 v
      | .error e => contextFail s2 e

/-- `processEvents(handler)` (bootstrap.js lines 49-106): awaits the
handler's settlement, reports it, then applies the exit-decision
policy — failure exits 1 (lines 68-72), `ASYNC_HANDLER` exits 0
(lines 75-78), callback used with `callbackWaitsForEmptyEventLoop ===
false` exits 0 (lines 81-92), callback not yet used with waiting
disabled arms `EXIT_ON_CALLBACK` (lines 93-105).  A thenable that
never settles would suspend forever; `UserHandler.body` always
settles, so the `none` branch is unreachable. -/
def processEvents (h : UserHandler) : St :=
  let s := runHandler h (initSt h.waits)
  match s.settled with
  | none => s
  | some (.error e) => exitProc (invokeError s e) 1
  | some (.ok v) =>
      let s1 := invokeResponse s v
      if s1.ctx.asyncHandler then exitProc s1 0
      else if s1.ctx.callbackUsed then
        if s1.ctx.waits = false then exitProc s1 0 else s1
      else
        if s1.ctx.waits = false then
          { s1 with ctx := { s1.ctx with exitOnCallback := true } }
        else s1

/-- After `processEvents` returns without exiting, the process stays
on the event loop; if the handler's deferred `callback` invocation
fires, the `callback` closure (lines 133-150) runs then. -/
def runInvocation (h : UserHandler) : St :=
  let s := processEvents h
  if s.exited then s
  else
    match h.laterCall with
    | none => s
    | some (err, data) => callback s err data

/-- The value `app[handlerName]` looked up by `getHandler`
(bootstrap.js line 113), as the harness discriminates it:
`null`/`undefined`, a non-function export, or a function whose
observable behaviour is a `UserHandler`. -/
inductive ExportVal
  | nonCallable
  | callable (h : UserHandler)

/-- The resolution phase of `getHandler` (bootstrap.js lines 108-124):
`lookup = none` models `userHandler == null`. -/
def getHandler (lookup : Option ExportVal) (handlerName origHandlerPath : String) :
    Except String UserHandler :=
  match lookup with
  | none =>
      .error ("Handler \"" ++ handlerName ++ "\" missing in \"" ++
        origHandlerPath ++ "\"")
  | some .nonCallable =>
      .error ("Handler \"" ++ handlerName ++ "\" in \"" ++ origHandlerPath ++
        "\" is not a function")
  | some (.callable h) => .ok h

/-- `start()` (bootstrap.js lines 35-47): on a resolution error,
report a failure outcome and exit 1; otherwise run `processEvents`
(and the remaining event-loop activity). -/
def start (lookup : Option ExportVal) (handlerName origHandlerPath : String) : St :=
  match getHandler lookup handlerName origHandlerPath with
  | .error msg => exitProc (invokeError (initSt true) (Value.str msg)) 1
  | .ok h => runInvocation h

/-- Number of IPC messages transmitted in a trace. -/
def countSends : List Ev → Nat
  | [] => 0
  | Ev.send _ :: rest => countSends rest + 1
  | Ev.exit _ :: rest => countSends rest

/-- Helper for `exitsFollowSends`: the `Bool` argument records whether
the immediately preceding event was a confirmed send. -/
def efsAux : Bool → List Ev → Bool
  | _, [] => true
  | prevSend, Ev.exit _ :: rest => prevSend && efsAux false rest
  | _, Ev.send _ :: rest => efsAux true rest

/-- Every `exit` event in the trace is immediately preceded by a
confirmed `send` event. -/
def exitsFollowSends (l : List Ev) : Bool := efsAux false l

/-- Whether the last event of `l` is a send (`b` when `l` is empty). -/
def lastSend (b : Bool) : List Ev → Bool
  | [] => b
  | Ev.send _ :: rest => lastSend true rest
  | Ev.exit _ :: rest => lastSend false rest

/-- A sample already-settled process state, used to exercise the
idempotence statements at a concrete input. -/
def settledSt : St :=
  { ctx := {}, settled := some (Except.ok (Value.num 1)),
    events := [Ev.send (Msg.success (Value.num 1))] }

/-- A handler that throws `e` synchronously before any callback or
return, with `callbackWaitsForEmptyEventLoop` effectively `w`. -/
def throwingHandler (e : Value) (w : Bool) : UserHandler :=
  { syncCalls := [], body := .throws e, laterCall := none, waits := w }

/-- A handler that returns the non-thenable value `v` without ever
invoking the callback synchronously; `lc` is an optional deferred
callback invocation. -/
def plainReturnHandler (v : Value) (w : Bool)
    (lc : Option (Value × Value)) : UserHandler :=
  { syncCalls := [], body := .returns v, laterCall := lc, waits := w }

/-- A handler that returns a thenable settling with `r` and never
invokes the callback. -/
def thenableHandler (r : Except Value Value) (w : Bool) : UserHandler :=
  { syncCalls := [], body := .thenable r, laterCall := none, waits := w }

/-- A handler that synchronously invokes `callback(null, v)` and then
returns the non-thenable value `u`. -/
def syncCallbackHandler (v u : Value) (w : Bool) : UserHandler :=
  { syncCalls := [(Value.vnull, v)], body := .returns u, laterCall := none,
    waits := w }

/-- A handler that returns the non-thenable `u` with
`callbackWaitsForEmptyEventLoop == false` and fires
`callback(null, 42)` later from the event loop. -/
def deferredCallbackHandler (u : Value) : UserHandler :=
  { syncCalls := [], body := .returns u,
    laterCall := some (Value.vnull, Value.num 42), waits := false }

/-- A handler that synchronously invokes `callback(e)` with a truthy
error and then returns `undefined`. -/
def callbackErrorHandler (e : Value) : UserHandler :=
  { syncCalls := [(e, Value.undef)], body := .returns Value.undef,
    laterCall := none, waits := true }

/-- A mixed-style handler: synchronously invokes `callback(null, 7)`
and also returns a thenable resolving to `5`, with
`callbackWaitsForEmptyEventLoop == false`. -/
def mixedThenableHandler : UserHandler :=
  { syncCalls := [(Value.vnull, Value.num 7)],
    body := .thenable (.ok (Value.num 5)), laterCall := none, waits := false }

/-! ## Preservation lemmas for the settlement primitive -/

theorem contextSucceed_of_some (s : St) (r : Except Value Value) (v : Value)
    (h : s.settled = some r) : contextSucceed s v = s := by
  simp [contextSucceed, h]

theorem contextFail_of_some (s : St) (r : Except Value Value) (e : Value)
    (h : s.settled = some r) : contextFail s e = s := by
  simp [contextFail, h]

theorem contextDone_of_some (s : St) (r : Except Value Value) (err data : Value)
    (h : s.settled = some r) : contextDone s err data = s := by
  unfold contextDone
  split
  case isTrue => exact contextFail_of_some s r err h
  case isFalse => exact contextSucceed_of_some s r data h

theorem contextSucceed_ctx (s : St) (v : Value) :
    (contextSucceed s v).ctx = s.ctx := by
  unfold contextSucceed; split <;> rfl

theorem contextSucceed_events (s : St) (v : Value) :
    (contextSucceed s v).events = s.events := by
  unfold contextSucceed; split <;> rfl

theorem contextSucceed_exited (s : St) (v : Value) :
    (contextSucceed s v).exited = s.exited := by
  unfold contextSucceed; split <;> rfl

theorem contextSucceed_invoked (s : St) (v : Value) :
    (contextSucceed s v).invoked = s.invoked := by
  unfold contextSucceed; split <;> rfl

theorem contextSucceed_isSome (s : St) (v : Value) :
    (contextSucceed s v).settled.isSome = true := by
  unfold contextSucceed; split <;> simp_all

theorem contextFail_ctx (s : St) (e : Value) :
    (contextFail s e).ctx = s.ctx := by
  unfold contextFail; split <;> rfl

theorem contextFail_events (s : St) (e : Value) :
    (contextFail s e).events = s.events := by
  unfold contextFail; split <;> rfl

theorem contextFail_exited (s : St) (e : Value) :
    (contextFail s e).exited = s.exited := by
  unfold contextFail; split <;> rfl

theorem contextFail_invoked (s : St) (e : Value) :
    (contextFail s e).invoked = s.invoked := by
  unfold contextFail; split <;> rfl

theorem contextFail_isSome (s : St) (e : Value) :
    (contextFail s e).settled.isSome = true := by
  unfold contextFail; split <;> simp_all

theorem contextDone_ctx (s : St) (err data : Value) :
    (contextDone s err data).ctx = s.ctx := by
  unfold contextDone; split
  case isTrue => exact contextFail_ctx s err
  case isFalse => exact contextSucceed_ctx s data

theorem contextDone_events (s : St) (err data : Value) :
    (contextDone s err data).events = s.events := by
  unfold contextDone; split
  case isTrue => exact contextFail_events s err
  case isFalse => exact contextSucceed_events s data

theorem contextDone_exited (s : St) (err data : Value) :
    (contextDone s err data).exited = s.exited := by
  unfold contextDone; split
  case isTrue => exact contextFail_exited s err
  case isFalse => exact contextSucceed_exited s data

/-! ## Field lemmas for the reporting and exit primitives -/

theorem invokeResponse_ctx (s : St) (v : Value) :
    (invokeResponse s v).ctx = s.ctx := rfl

theorem invokeResponse_settled (s : St) (v : Value) :
    (invokeResponse s v).settled = s.settled := rfl

theorem invokeResponse_exited (s : St) (v : Value) :
    (invokeResponse s v).exited = s.exited := rfl

theorem invokeError_settled (s : St) (e : Value) :
    (invokeError s e).settled = s.settled := rfl

theorem exitProc_settled (s : St) (c : Nat) :
    (exitProc s c).settled = s.settled := rfl

theorem exitProc_exited (s : St) (c : Nat) :
    (exitProc s c).exited = true := rfl

/-! ## Characterisation of the `callback` closure -/

theorem callback_events (s : St) (err data : Value) :
    (callback s err data).events =
      s.events ++ [Ev.send (Msg.success data.normUndef)] ++
        (if s.ctx.exitOnCallback then [Ev.exit 0] else []) := by
  unfold callback
  by_cases hec : s.ctx.exitOnCallback <;>
    simp [hec, invokeResponse, exitProc, contextDone_ctx, contextDone_events]

theorem callback_settled (s : St) (err data : Value) :
    (callback s err data).settled = (contextDone s err data).settled := by
  have hd : (contextDone { s with
        ctx := { s.ctx with callbackUsed := true } } err data).settled =
      (contextDone s err data).settled := by
    unfold contextDone contextFail contextSucceed
    by_cases ht : err.truthy <;> by_cases hs : s.settled.isSome <;>
      simp [ht, hs]
  unfold callback
  dsimp only
  split <;> simp [invokeResponse, exitProc, hd]

theorem callback_settled_of_some (s : St) (r : Except Value Value)
    (err data : Value) (h : s.settled = some r) :
    (callback s err data).settled = some r := by
  rw [callback_settled, contextDone_of_some _ r _ _ h]
  exact h

theorem callback_callbackUsed (s : St) (err data : Value) :
    (callback s err data).ctx.callbackUsed = true := by
  unfold callback
  by_cases hec : s.ctx.exitOnCallback <;>
    simp [hec, invokeResponse, exitProc, contextDone_ctx]

/-! ## Counting sends -/

theorem countSends_append (l r : List Ev) :
    countSends (l ++ r) = countSends l + countSends r := by
  induction l with
  | nil => simp [countSends]
  | cons e rest ih => cases e <;> simp [countSends, ih] <;> omega

theorem countSends_callback (s : St) (err data : Value) :
    countSends (callback s err data).events = countSends s.events + 1 := by
  rw [callback_events]
  by_cases hec : s.ctx.exitOnCallback <;>
    simp [hec, countSends_append, countSends]

/-! ## Exit events are always preceded by confirmed sends -/

theorem efsAux_append (l r : List Ev) (b : Bool) :
    efsAux b (l ++ r) = (efsAux b l && efsAux (lastSend b l) r) := by
  induction l generalizing b with
  | nil => simp [efsAux, lastSend]
  | cons e rest ih =>
      cases e with
      | send m => simp [efsAux, lastSend, ih]
      | exit c => simp [efsAux, lastSend, ih, Bool.and_assoc]

theorem efs_append_send (l : List Ev) (m : Msg) :
    exitsFollowSends (l ++ [Ev.send m]) = exitsFollowSends l := by
  unfold exitsFollowSends
  rw [efsAux_append]
  simp [efsAux]

theorem efs_append_send_exit (l : List Ev) (m : Msg) (c : Nat) :
    exitsFollowSends (l ++ [Ev.send m, Ev.exit c]) = exitsFollowSends l := by
  unfold exitsFollowSends
  rw [efsAux_append]
  simp [efsAux]

theorem efs_invokeResponse (s : St) (v : Value) :
    exitsFollowSends (invokeResponse s v).events = exitsFollowSends s.events :=
  efs_append_send s.events _

theorem efs_exitProc_invokeResponse (s : St) (v : Value) (c : Nat) :
    exitsFollowSends (exitProc (invokeResponse s v) c).events =
      exitsFollowSends s.events := by
  show exitsFollowSends ((s.events ++ [Ev.send (Msg.success v.normUndef)]) ++
    [Ev.exit c]) = exitsFollowSends s.events
  rw [List.append_assoc]
  exact efs_append_send_exit s.events _ c

theorem efs_exitProc_invokeError (s : St) (e : Value) (c : Nat) :
    exitsFollowSends (exitProc (invokeError s e) c).events =
      exitsFollowSends s.events := by
  show exitsFollowSends ((s.events ++
    [Ev.send (Msg.failure (serializeError e))]) ++ [Ev.exit c]) =
    exitsFollowSends s.events
  rw [List.append_assoc]
  exact efs_append_send_exit s.events _ c

theorem efs_callback (s : St) (err data : Value) :
    exitsFollowSends (callback s err data).events =
      exitsFollowSends s.events := by
  rw [callback_events]
  by_cases hec : s.ctx.exitOnCallback
  case pos =>
    rw [if_pos hec, List.append_assoc]
    exact efs_append_send_exit s.events _ 0
  case neg =>
    rw [if_neg hec, List.append_nil]
    exact efs_append_send s.events _

theorem efs_runSyncCalls (calls : List (Value × Value)) (s : St) :
    exitsFollowSends (runSyncCalls s calls).events =
      exitsFollowSends s.events := by
  induction calls generalizing s with
  | nil => rfl
  | cons p rest ih =>
      obtain ⟨err, data⟩ := p
      show exitsFollowSends (runSyncCalls (callback s err data) rest).events =
        exitsFollowSends s.events
      rw [ih, efs_callback]

theorem runHandler_events (h : UserHandler) (s : St) :
    (runHandler h s).events =
      (runSyncCalls { s with invoked := true } h.syncCalls).events := by
  unfold runHandler
  dsimp only
  cases h.body with
  | throws e => rw [contextFail_events]
  | returns v => rw [contextSucceed_events]
  | thenable r =>
      cases r with
      | ok v => rw [contextSucceed_events]
      | error e => rw [contextFail_events]

theorem efs_runHandler (h : UserHandler) (s : St) :
    exitsFollowSends (runHandler h s).events = exitsFollowSends s.events := by
  rw [runHandler_events, efs_runSyncCalls]

theorem efs_processEvents (h : UserHandler) :
    exitsFollowSends (processEvents h).events = true := by
  have hbase : exitsFollowSends (runHandler h (initSt h.waits)).events = true := by
    rw [efs_runHandler]
    rfl
  unfold processEvents
  dsimp only
  cases hs : (runHandler h (initSt h.waits)).settled with
  | none => exact hbase
  | some r =>
      cases r with
      | error e => rw [efs_exitProc_invokeError]; exact hbase
      | ok v =>
          dsimp only
          split
          case isTrue => rw [efs_exitProc_invokeResponse]; exact hbase
          case isFalse =>
            split
            case isTrue =>
              split
              case isTrue => rw [efs_exitProc_invokeResponse]; exact hbase
              case isFalse => rw [efs_invokeResponse]; exact hbase
            case isFalse =>
              split
              case isTrue =>
                show exitsFollowSends
                  (invokeResponse (runHandler h (initSt h.waits)) v).events = true
                rw [efs_invokeResponse]
                exact hbase
              case isFalse => rw [efs_invokeResponse]; exact hbase

theorem efs_runInvocation (h : UserHandler) :
    exitsFollowSends (runInvocation h).events = true := by
  unfold runInvocation
  dsimp only
  split
  case isTrue => exact efs_processEvents h
  case isFalse =>
    cases h.laterCall with
    | none => exact efs_processEvents h
    | some p =>
        obtain ⟨err, data⟩ := p
        dsimp only
        rw [efs_callback]
        exact efs_processEvents h

/-! ## Handler-run facts -/

theorem runHandler_async (h : UserHandler) (s : St) (r : Except Value Value)
    (hb : h.body = HandlerBody.thenable r) :
    (runHandler h s).ctx.asyncHandler = true := by
  unfold runHandler
  dsimp only
  rw [hb]
  cases r with
  | ok v => rw [contextSucceed_ctx]
  | error e => rw [contextFail_ctx]

theorem runHandler_isSome (h : UserHandler) (s : St) :
    (runHandler h s).settled.isSome = true := by
  unfold runHandler
  dsimp only
  cases h.body with
  | throws e => exact contextFail_isSome _ _
  | returns v => exact contextSucceed_isSome _ _
  | thenable r =>
      cases r with
      | ok v => exact contextSucceed_isSome _ _
      | error e => exact contextFail_isSome _ _

theorem processEvents_async_ok (h : UserHandler) (w : Value)
    (ha : (runHandler h (initSt h.waits)).ctx.asyncHandler = true)
    (hs : (runHandler h (initSt h.waits)).settled = some (Except.ok w)) :
    processEvents h =
      exitProc (invokeResponse (runHandler h (initSt h.waits)) w) 0 := by
  have hcond :
      (invokeResponse (runHandler h (initSt h.waits)) w).ctx.asyncHandler =
        true := by
    rw [invokeResponse_ctx]; exact ha
  unfold processEvents
  dsimp only
  rw [hs]
  simp [hcond]

theorem processEvents_error (h : UserHandler) (e : Value)
    (hs : (runHandler h (initSt h.waits)).settled = some (Except.error e)) :
    processEvents h =
      exitProc (invokeError (runHandler h (initSt h.waits)) e) 1 := by
  unfold processEvents
  dsimp only
  rw [hs]

/-! ## The claims -/

/-- C1, counterexample: the claim "at most one HandlerOutcome message
is ever sent to the parent per invocation" is false on the code.  A
handler that synchronously invokes `callback(null, 5)` and returns
causes two success messages: one from the callback closure's own
`invokeResponse(data)` (bootstrap.js line 141) and one from
`processEvents`' `invokeResponse(result)` after the promise settles
(line 67). -/
theorem C1_counterexample :
    countSends (runInvocation
      (syncCallbackHandler (Value.num 5) Value.undef true)).events = 2 ∧
    (runInvocation (syncCallbackHandler (Value.num 5) Value.undef true)).events =
      [Ev.send (Msg.success (Value.num 5)),
       Ev.send (Msg.success (Value.num 5))] :=
  ⟨rfl, rfl⟩

/-- C1, amended: the *settlement* is produced at most once per
invocation — once the invocation promise holds `r`, any later
completion signal (`succeed`, `fail`, `done`, or the raw callback)
leaves the settlement unchanged — but every callback invocation still
transmits one additional success-typed IPC message, so more than one
outcome message may be sent per invocation. -/
theorem C1_amended_settlement_idempotent (s : St) (r : Except Value Value)
    (v e err data : Value) (h : s.settled = some r) :
    (contextSucceed s v).settled = some r ∧
    (contextFail s e).settled = some r ∧
    (contextDone s err data).settled = some r ∧
    (callback s err data).settled = some r ∧
    countSends (callback s err data).events = countSends s.events + 1 := by
  refine ⟨?_, ?_, ?_, ?_, ?_⟩
  · rw [contextSucceed_of_some s r v h]; exact h
  · rw [contextFail_of_some s r e h]; exact h
  · rw [contextDone_of_some s r err data h]; exact h
  · exact callback_settled_of_some s r err data h
  · exact countSends_callback s err data

/-- C1, witness: the amended statement instantiated at the concrete
already-settled state `settledSt`. -/
theorem C1_amended_witness :
    settledSt.settled = some (Except.ok (Value.num 1)) ∧
    ((contextSucceed settledSt (Value.num 2)).settled =
        some (Except.ok (Value.num 1)) ∧
      (contextFail settledSt (Value.str "e")).settled =
        some (Except.ok (Value.num 1)) ∧
      (contextDone settledSt Value.vnull (Value.num 3)).settled =
        some (Except.ok (Value.num 1)) ∧
      (callback settledSt Value.vnull (Value.num 3)).settled =
        some (Except.ok (Value.num 1)) ∧
      countSends (callback settledSt Value.vnull (Value.num 3)).events =
        countSends settledSt.events + 1) :=
  ⟨rfl, C1_amended_settlement_idempotent settledSt (Except.ok (Value.num 1))
    (Value.num 2) (Value.str "e") Value.vnull (Value.num 3) rfl⟩

/-- C2, counterexample: the raw `callback(error, value)` is not
observationally equivalent to the injected `done(error, value)`: at
the initial state, `callback(null, 3)` transmits a success message
while `done(null, 3)` transmits nothing. -/
theorem C2_counterexample :
    (callback (initSt true) Value.vnull (Value.num 3)).events ≠
      (contextDone (initSt true) Value.vnull (Value.num 3)).events := by
  decide

/-- C2, amended: `done(error, value)` equals
`error ? fail(error) : succeed(value)`, and the raw callback is
equivalent to `done` with respect to the settlement only: for every
`(error, value)` pair it produces the same settlement as `done`, but
unlike `done` it also records `callbackUsed`, unconditionally
transmits a success-typed IPC message carrying the value, and — when
the deferred-exit flag is armed — exits the process, so its effect on
reporting differs from `done`'s. -/
theorem C2_amended_callback_vs_done (s : St) (err data : Value) :
    contextDone s err data =
      (if err.truthy then contextFail s err else contextSucceed s data) ∧
    (callback s err data).settled = (contextDone s err data).settled ∧
    (callback s err data).ctx.callbackUsed = true ∧
    (callback s err data).events =
      s.events ++ [Ev.send (Msg.success data.normUndef)] ++
        (if s.ctx.exitOnCallback then [Ev.exit 0] else []) ∧
    (contextDone s err data).events = s.events :=
  ⟨rfl, callback_settled s err data, callback_callbackUsed s err data,
    callback_events s err data, contextDone_events s err data⟩

/-- C3: a handler that returns a non-thenable value `v` (including
`undefined`) without having settled via the callback settles as
Success with payload `null` — never with `v` — and the first reported
message is `{type: "success", data: null}`, for every `v`, every
`callbackWaitsForEmptyEventLoop` value and every deferred callback. -/
theorem C3_plain_return_settles_null (v : Value) (w : Bool)
    (lc : Option (Value × Value)) :
    (runInvocation (plainReturnHandler v w lc)).settled =
      some (Except.ok Value.vnull) ∧
    (runInvocation (plainReturnHandler v w lc)).events.head? =
      some (Ev.send (Msg.success Value.vnull)) := by
  cases lc with
  | none => cases w <;> exact ⟨rfl, rfl⟩
  | some p =>
      obtain ⟨err, data⟩ := p
      cases w with
      | false =>
          have hr :
              runInvocation (plainReturnHandler v false (some (err, data))) =
                callback
                  (processEvents (plainReturnHandler v false (some (err, data))))
                  err data := rfl
          constructor
          · rw [hr]
            exact callback_settled_of_some _ (Except.ok Value.vnull) _ _ rfl
          · rw [hr, callback_events]
            rfl
      | true =>
          have hr :
              runInvocation (plainReturnHandler v true (some (err, data))) =
                callback
                  (processEvents (plainReturnHandler v true (some (err, data))))
                  err data := rfl
          constructor
          · rw [hr]
            exact callback_settled_of_some _ (Except.ok Value.vnull) _ _ rfl
          · rw [hr, callback_events]
            rfl

/-- C4: on every path that terminates the process, the exit happens
only after the corresponding outcome message's transmission has been
confirmed: in the trace of `start`, for every module lookup result
and every handler behaviour, each `exit` event is immediately
preceded by a confirmed `send` event. -/
theorem C4_exit_only_after_confirmed_send (lookup : Option ExportVal)
    (handlerName origHandlerPath : String) :
    exitsFollowSends (start lookup handlerName origHandlerPath).events =
      true := by
  cases lookup with
  | none => rfl
  | some ev =>
      cases ev with
      | nonCallable => rfl
      | callable h => exact efs_runInvocation h

/-- C5: a sync-style handler (no thenable returned) that invokes
`callback(null, v)` synchronously settles Success(v); with
`callbackWaitsForEmptyEventLoop == false` the process then exits with
status 0 immediately after the reports, and with the default (`true`)
no exit ever occurs (the trace contains no exit event and the process
is not terminated). -/
theorem C5_sync_callback_exit_policy (v u : Value) :
    ((runInvocation (syncCallbackHandler v u false)).settled =
        some (Except.ok v) ∧
      (runInvocation (syncCallbackHandler v u false)).events =
        [Ev.send (Msg.success v.normUndef), Ev.send (Msg.success v.normUndef),
         Ev.exit 0]) ∧
    ((runInvocation (syncCallbackHandler v u true)).settled =
        some (Except.ok v) ∧
      (runInvocation (syncCallbackHandler v u true)).events =
        [Ev.send (Msg.success v.normUndef),
         Ev.send (Msg.success v.normUndef)] ∧
      (runInvocation (syncCallbackHandler v u true)).exited = false) :=
  ⟨⟨rfl, rfl⟩, rfl, rfl, rfl⟩

/-- C6: a handler that returns a thenable resolving to `v` (its only
completion mechanism) settles Success(v) and the process exits 0
right after the report; moreover for *any* handler classified
async-style whose invocation settled successfully — regardless of the
`callbackUsed` and `callbackWaitsForEmptyEventLoop` flags — the trace
ends with `exit 0`. -/
theorem C6_thenable_success_exit0 :
    (∀ (v : Value) (w : Bool),
      (runInvocation (thenableHandler (Except.ok v) w)).settled =
        some (Except.ok v) ∧
      (runInvocation (thenableHandler (Except.ok v) w)).events =
        [Ev.send (Msg.success v.normUndef), Ev.exit 0]) ∧
    (∀ (h : UserHandler) (v r : Value),
      h.body = HandlerBody.thenable (Except.ok v) →
      (runInvocation h).settled = some (Except.ok r) →
      (runInvocation h).events.getLast? = some (Ev.exit 0)) := by
  constructor
  · intro v w
    exact ⟨rfl, rfl⟩
  · intro h v r hb hr
    have hasync := runHandler_async h (initSt h.waits) (Except.ok v) hb
    have hsome := runHandler_isSome h (initSt h.waits)
    cases hs : (runHandler h (initSt h.waits)).settled with
    | none => rw [hs] at hsome; exact absurd hsome (by simp)
    | some rr =>
        cases rr with
        | error e =>
            have hpe := processEvents_error h e hs
            have hri : runInvocation h = processEvents h := by
              unfold runInvocation
              dsimp only
              rw [hpe]
              exact if_pos (exitProc_exited _ _)
            rw [hri, hpe, exitProc_settled, invokeError_settled, hs] at hr
            exact absurd hr (by simp)
        | ok wv =>
            have hpe := processEvents_async_ok h wv hasync hs
            have hri : runInvocation h = processEvents h := by
              unfold runInvocation
              dsimp only
              rw [hpe]
              exact if_pos (exitProc_exited _ _)
            rw [hri, hpe]
            show (exitProc (invokeResponse _ wv) 0).events.getLast? =
              some (Ev.exit 0)
            exact List.getLast?_concat _

/-- C6, witness: the conditional part of C6 instantiated at a
concrete mixed-style handler that used the callback
(`callback(null, 7)` plus a thenable resolving to `5`, with waiting
disabled): its settlement is `Success 7` and the trace still ends
with `exit 0`. -/
theorem C6_thenable_witness :
    mixedThenableHandler.body =
      HandlerBody.thenable (Except.ok (Value.num 5)) ∧
    (runInvocation mixedThenableHandler).settled =
      some (Except.ok (Value.num 7)) ∧
    (runInvocation mixedThenableHandler).events.getLast? =
      some (Ev.exit 0) :=
  ⟨rfl, rfl,
    C6_thenable_success_exit0.2 mixedThenableHandler (Value.num 5)
      (Value.num 7) rfl rfl⟩

/-- C7: when the handler has returned without using the callback and
`callbackWaitsForEmptyEventLoop == false`, the deferred-exit flag is
armed and the process stays alive; when the callback later fires with
`(null, 42)` a Success(42) outcome is reported at callback time and
the process then exits 0, the exit coming only after that report's
transmission is confirmed. -/
theorem C7_deferred_callback_exit (u : Value) :
    (processEvents (deferredCallbackHandler u)).ctx.exitOnCallback = true ∧
    (processEvents (deferredCallbackHandler u)).exited = false ∧
    (runInvocation (deferredCallbackHandler u)).events =
      [Ev.send (Msg.success Value.vnull),
       Ev.send (Msg.success (Value.num 42)), Ev.exit 0] :=
  ⟨rfl, rfl, rfl⟩

/-- C8: a handler that throws `e` synchronously before any callback
or return settles as Failure carrying the serialized exception; the
failure-typed message's transmission is confirmed and only then does
the process exit with status 1. -/
theorem C8_sync_throw_failure_exit1 (e : Value) (w : Bool) :
    (runInvocation (throwingHandler e w)).settled =
      some (Except.error e) ∧
    (runInvocation (throwingHandler e w)).events =
      [Ev.send (Msg.failure (serializeError e)), Ev.exit 1] :=
  ⟨rfl, rfl⟩

/-- C9: when the looked-up export is absent, resolution fails with a
message naming both the handler export name and the original handler
path, a failure outcome is confirmed transmitted, the process exits
with status 1, and the handler body is never invoked. -/
theorem C9_missing_export (handlerName origHandlerPath : String) :
    getHandler none handlerName origHandlerPath =
      Except.error ("Handler \"" ++ handlerName ++ "\" missing in \"" ++
        origHandlerPath ++ "\"") ∧
    (start none handlerName origHandlerPath).events =
      [Ev.send (Msg.failure (Value.str ("Handler \"" ++ handlerName ++
        "\" missing in \"" ++ origHandlerPath ++ "\""))), Ev.exit 1] ∧
    (start none handlerName origHandlerPath).invoked = false :=
  ⟨rfl, rfl, rfl⟩

/-- C10: every invocation of the raw callback — for any
`(error, value)` arguments and from any state, including
already-settled ones — appends exactly one success-typed IPC message
carrying the (undefined-normalised) value, followed by an exit only
when the deferred-exit flag was armed; consequently a handler that
calls `callback("boom")` produces a success-typed message in addition
to the failure-typed message of the rejected settlement. -/
theorem C10_callback_always_sends_success :
    (∀ (s : St) (err data : Value),
      (callback s err data).events =
        s.events ++ [Ev.send (Msg.success data.normUndef)] ++
          (if s.ctx.exitOnCallback then [Ev.exit 0] else [])) ∧
    (runInvocation (callbackErrorHandler (Value.str "boom"))).events =
      [Ev.send (Msg.success Value.vnull),
       Ev.send (Msg.failure (serializeError (Value.str "boom"))),
       Ev.exit 1] :=
  ⟨callback_events, rfl⟩
